import Mathlib

/-!
Shallow embedding of mindboggle/features/fundi.py (extract_fundi and
segment_fundi) together with the statistics helper they use, and proofs of
the specified properties.

Modelling conventions:
* numpy float scalars (curvature, depth, their products, the threshold) are
  modelled as rationals; fold, fundus and sulcus labels, which the source
  documents as integers, as integers.
* per-vertex numpy arrays are Lean lists; fancy reads and writes
  `a[indices]` become range/filter/map constructions, and an out-of-bounds
  fancy index, which raises IndexError in numpy, becomes an Except.error.
* the five external collaborator routines imported by fundi.py from
  mindboggle.guts and mindboggle.mio are not part of this repository; they
  appear as function-valued parameters (structure Collaborators) or, where a
  claim depends on their contract, as definitions modelled from the spec.
* printing and the verbose flag are omitted; they do not affect any result.
-/

namespace Mindboggle

/-- numpy median of a list of rationals: the middle element of the sorted
list for odd length, the mean of the two middle elements for even length.
On the empty list numpy yields NaN; here the getD default 0 is returned,
a case the spec (section 4.1) declares a caller error. -/
def npMedian (xs : List ℚ) : ℚ :=
  let s := xs.insertionSort (· ≤ ·)
  if s.length % 2 = 1 then s.getD (s.length / 2) 0
  else (s.getD (s.length / 2 - 1) 0 + s.getD (s.length / 2) 0) / 2

/-- Modelled from the spec: median_abs_dev (mindboggle.guts.compute, not
under src/) is the median of absolute deviations from the sample median,
with no normal-consistency scaling (spec sections 4.1 and glossary). -/
def median_abs_dev (xs : List ℚ) : ℚ :=
  npMedian (xs.map (fun x => |x - npMedian xs|))

/-- numpy unique: the sorted list of distinct values of a list. -/
def npUnique (l : List ℤ) : List ℤ :=
  (l.insertionSort (· ≤ ·)).dedup

/-- Count of distinct values different from the background sentinel, the
expression len([x for x in np.unique(a) if x != background_value]) used at
fundi.py lines 186-187 and 310-311. -/
def distinctNonBg (l : List ℤ) (background_value : ℤ) : ℕ :=
  ((npUnique l).filter (fun x => x ≠ background_value)).length

/-- Indices of the vertices whose fundus-per-fold value is not background,
the comprehension [i for i,x in enumerate(fundus_per_fold) if x !=
background_value] at fundi.py lines 305-306. -/
def fundusIndices (fundus_per_fold : List ℤ) (background_value : ℤ) : List ℕ :=
  (List.range fundus_per_fold.length).filter
    (fun i => fundus_per_fold.getD i background_value ≠ background_value)

/-- segment_fundi (fundi.py lines 299-314), restricted to the in-memory
result: the pair (fundus_per_sulcus, n_fundi). The numpy fancy assignment
fundus_per_sulcus[indices] = sulci[indices] raises IndexError when some
index is out of bounds for sulci; that is the Except.error branch. The
int(x) coercion applied by the source when n_fundi > 0 is the identity on
integer labels and is left implicit here. -/
def segment_fundi (fundus_per_fold : List ℤ) (sulci : List ℤ)
    (background_value : ℤ) : Except String (List ℤ × ℕ) :=
  let indices := fundusIndices fundus_per_fold background_value
  if indices ≠ [] ∧ sulci.length ≠ 0 then
    if indices.all (fun i => i < sulci.length) then
      let fundus_per_sulcus := (List.range sulci.length).map
        (fun i => if i ∈ indices then sulci.getD i background_value
                  else background_value)
      let n_fundi := distinctNonBg fundus_per_sulcus background_value
      Except.ok (fundus_per_sulcus, n_fundi)
    else Except.error "IndexError"
  else Except.ok ([], 0)

/-- External collaborator routines used by extract_fundi; their sources
live outside this repository (mindboggle.guts.paths, mindboggle.guts.mesh),
so the orchestrator is parameterized over them. Signatures follow the call
sites in fundi.py (constant arguments [], the empty string and the verbose
flag of connect_points_erosion are dropped). -/
structure Collaborators where
  find_outer_endpoints :
    List ℕ → List (List ℕ) → List ℚ → List ℚ → ℕ → List ℕ × List (List ℕ)
  find_max_values : List (ℚ × ℚ × ℚ) → List ℚ → ℕ → ℚ → List ℕ
  connect_points_erosion :
    List ℤ → List (List ℕ) → List ℕ → List ℕ → List ℚ → ℚ → ℕ → ℤ → List ℕ
  find_complete_faces : List ℕ → List (ℕ × ℕ × ℕ) → List ℕ

/-- Data produced by read_vtk on the curvature file: point coordinates,
triangle faces, curvature scalars, and the reported number of points. -/
structure MeshData where
  points : List (ℚ × ℚ × ℚ)
  faces : List (ℕ × ℕ × ℕ)
  curvs : List ℚ
  npoints : ℕ

/-- Ambient state seen by one call of extract_fundi: which paths exist on
disk, what the readers return, the working directory, and whether the
rewrite_scalars collaborator leaves its output artifact on disk. -/
structure Env where
  isfile : String → Bool
  mesh : MeshData
  depths : List ℚ
  neighbor_lists : List (List ℕ)
  cwd : String
  rewrite_creates : Bool

/-- Record of one iteration of the per-fold loop: the fold ID, the
threshold argument passed to find_max_values at fundi.py line 162, and
whether connect_points_erosion returned a non-empty skeleton. -/
structure FoldTrace where
  foldID : ℤ
  thrArg : ℚ
  skelNonempty : Bool
deriving DecidableEq

/-- Mutable state of the per-fold loop: the accumulated skeleton list and
the instrumentation trace. -/
structure LoopState where
  skeletons : List ℕ
  trace : List FoldTrace
deriving DecidableEq

/-- Read-only context of the per-fold loop of extract_fundi. -/
structure FoldCtx where
  C : Collaborators
  folds : List ℤ
  values : List ℚ
  depths : List ℚ
  points : List (ℚ × ℚ × ℚ)
  faces : List (ℕ × ℕ × ℕ)
  neighbor_lists : List (List ℕ)
  npoints : ℕ
  thr : ℚ
  min_separation : ℕ
  erode_ratio : ℚ
  erode_min_size : ℕ
  background_value : ℤ

/-- Member vertices of one fold, the comprehension
[i for i,x in enumerate(folds) if x == fold_ID] at fundi.py line 146. -/
def foldMembers (folds : List ℤ) (background_value : ℤ) (fold_ID : ℤ) :
    List ℕ :=
  (List.range folds.length).filter
    (fun i => folds.getD i background_value = fold_ID)

/-- Binary fold mask built at fundi.py lines 168-169: background everywhere,
1 at the member vertices of the fold. -/
def foldMask (npoints : ℕ) (indices_fold : List ℕ) (background_value : ℤ) :
    List ℤ :=
  (List.range npoints).map
    (fun i => if i ∈ indices_fold then (1 : ℤ) else background_value)

/-- Body of the per-fold loop of extract_fundi (fundi.py lines 145-181).
The frozenset difference at line 181 is modelled by dedup followed by
filter; only the membership of the resulting list is meaningful, matching
the unspecified iteration order of a Python frozenset. -/
def foldStep (ctx : FoldCtx) (st : LoopState) (fold_ID : ℤ) : LoopState :=
  let indices_fold := foldMembers ctx.folds ctx.background_value fold_ID
  if indices_fold.isEmpty then st else
    let outer_anchors := (ctx.C.find_outer_endpoints indices_fold
      ctx.neighbor_lists ctx.values ctx.depths ctx.min_separation).1
    let inner_anchors := ctx.C.find_max_values ctx.points ctx.values
      ctx.min_separation ctx.thr
    let B := foldMask ctx.npoints indices_fold ctx.background_value
    let skeleton := ctx.C.connect_points_erosion B ctx.neighbor_lists
      outer_anchors inner_anchors ctx.values ctx.erode_ratio
      ctx.erode_min_size ctx.background_value
    let skeletons1 := if skeleton.isEmpty then st.skeletons
      else st.skeletons ++ skeleton
    let iremove := ctx.C.find_complete_faces skeletons1 ctx.faces
    let skeletons2 := if iremove.isEmpty then skeletons1
      else skeletons1.dedup.filter (fun x => x ∉ iremove)
    ⟨skeletons2, st.trace ++ [⟨fold_ID, ctx.thr, !skeleton.isEmpty⟩]⟩

/-- In-memory result of extract_fundi before the output step. -/
structure CoreResult where
  fundus_per_fold : List ℤ
  n_fundi_in_folds : ℕ
  trace : List FoldTrace
deriving DecidableEq

/-- Elementwise numpy product values = curvs * depths (fundi.py line 126).
The reader contract guarantees one curvature and one depth scalar per
vertex, so the product is a zipWith. -/
def valueField (env : Env) : List ℚ :=
  List.zipWith (· * ·) env.mesh.curvs env.depths

/-- Strictly positive subset values0 = [x for x in values if x > 0] of the
value field (fundi.py line 127). -/
def positiveValues (env : Env) : List ℚ :=
  (valueField env).filter (fun x => 0 < x)

/-- Global inner-anchor threshold thr = np.median(values0) +
2 * median_abs_dev(values0), computed once before the per-fold loop
(fundi.py line 128). -/
def globalThreshold (env : Env) : ℚ :=
  npMedian (positiveValues env) + 2 * median_abs_dev (positiveValues env)

/-- Unique fold IDs excluding the background sentinel (fundi.py line 136). -/
def uniqueFoldIDs (folds : List ℤ) (background_value : ℤ) : List ℤ :=
  (npUnique folds).filter (fun x => x ≠ background_value)

/-- Context of the per-fold loop as set up by fundi.py lines 126-129. -/
def mkCtx (C : Collaborators) (env : Env) (folds : List ℤ)
    (min_separation : ℕ) (erode_ratio : ℚ) (erode_min_size : ℕ)
    (background_value : ℤ) : FoldCtx :=
  ⟨C, folds, valueField env, env.depths, env.mesh.points, env.mesh.faces,
    env.neighbor_lists, env.mesh.npoints, globalThreshold env,
    min_separation, erode_ratio, erode_min_size, background_value⟩

/-- The per-fold loop of fundi.py lines 145-181, starting from an empty
skeleton list. -/
def runFoldLoop (ctx : FoldCtx) : LoopState :=
  (uniqueFoldIDs ctx.folds ctx.background_value).foldl (foldStep ctx)
    ⟨[], []⟩

/-- Assembly of fundus_per_fold (fundi.py lines 183-185): keep only
accumulated skeleton vertices whose fold label is not background, then
write the own fold label of each such vertex over a background array of
length npoints. -/
def buildFundusPerFold (folds : List ℤ) (background_value : ℤ) (np : ℕ)
    (skeletons : List ℕ) : List ℤ :=
  let indices_skel := skeletons.filter
    (fun x => folds.getD x background_value ≠ background_value)
  (List.range np).map
    (fun v => if v ∈ indices_skel then folds.getD v background_value
              else background_value)

/-- Core of extract_fundi (fundi.py lines 126-187): value field, global
threshold, per-fold loop, assembly of fundus_per_fold, and the count of
distinct non-background values (lines 186-187). -/
def extract_fundi_core (C : Collaborators) (env : Env) (folds : List ℤ)
    (min_separation : ℕ) (erode_ratio : ℚ) (erode_min_size : ℕ)
    (background_value : ℤ) : CoreResult :=
  let st := runFoldLoop (mkCtx C env folds min_separation erode_ratio
    erode_min_size background_value)
  let fundus_per_fold := buildFundusPerFold folds background_value
    env.mesh.npoints st.skeletons
  ⟨fundus_per_fold, distinctNonBg fundus_per_fold background_value,
    st.trace⟩

/-- Python int() applied to an integer label (fundi.py line 201) is the
identity. -/
def int_coerce (x : ℤ) : ℤ := x

/-- Fixed name of the output artifact, os.path.join(os.getcwd(),
'fundus_per_fold.vtk') at fundi.py lines 203-204. -/
def fixedOutputFile (env : Env) : String :=
  env.cwd ++ "/fundus_per_fold.vtk"

/-- Full result of extract_fundi; writes records each (path, payload) pair
handed to the rewrite_scalars collaborator. -/
structure ExtractResult where
  fundus_per_fold : List ℤ
  n_fundi_in_folds : ℕ
  fundus_per_fold_file : Option String
  trace : List FoldTrace
  writes : List (String × List ℤ)
deriving DecidableEq

/-- Output step of extract_fundi (fundi.py lines 199-210): no artifact when
no fundus was found, otherwise integer coercion, optional serialization to
the fixed-name artifact, and the post-write existence check raising
IOError when the artifact is missing. -/
def output_step (env : Env) (save_file : Bool) (c : CoreResult) :
    Except String ExtractResult :=
  if 0 < c.n_fundi_in_folds then
    let fpf := c.fundus_per_fold.map int_coerce
    if save_file then
      let file := fixedOutputFile env
      if env.rewrite_creates then
        Except.ok ⟨fpf, c.n_fundi_in_folds, some file, c.trace, [(file, fpf)]⟩
      else Except.error (file ++ " not found")
    else Except.ok ⟨fpf, c.n_fundi_in_folds, none, c.trace, []⟩
  else Except.ok ⟨c.fundus_per_fold, c.n_fundi_in_folds, none, c.trace, []⟩

/-- Explicit file-existence validation of extract_fundi
(fundi.py lines 117-125), exactly as written in the source: both isfile
tests are applied to curv_file, so the branch raising the IOError that
names depth_file is unreachable. The source message format, with an
apostrophe spelled out, is: <file> does not exist!. -/
def explicit_file_checks (isfile : String → Bool)
    (curv_file depth_file : String) : Except String Unit :=
  if isfile curv_file then
    if isfile curv_file then Except.ok ()
    else Except.error (depth_file ++ " does not exist!")
  else Except.error (curv_file ++ " does not exist!")

/-- Validation phase of extract_fundi: the explicit checks of the source,
followed by the call read_scalars(depth_file) at line 123. Modelled from
the spec: read_scalars (mindboggle.mio.vtks, not under src/) fails with a
not-found error when its path does not exist (spec section 6). -/
def validate_inputs (isfile : String → Bool)
    (curv_file depth_file : String) : Except String Unit :=
  match explicit_file_checks isfile curv_file depth_file with
  | Except.error e => Except.error e
  | Except.ok _ =>
      if isfile depth_file then Except.ok ()
      else Except.error ("read_scalars: file not found: " ++ depth_file)

/-- extract_fundi (fundi.py lines 13-210): validation, core computation,
output step. -/
def extract_fundi (C : Collaborators) (env : Env) (folds : List ℤ)
    (curv_file depth_file : String) (min_separation : ℕ) (erode_ratio : ℚ)
    (erode_min_size : ℕ) (save_file : Bool) (background_value : ℤ) :
    Except String ExtractResult :=
  match validate_inputs env.isfile curv_file depth_file with
  | Except.error e => Except.error e
  | Except.ok _ => output_step env save_file
      (extract_fundi_core C env folds min_separation erode_ratio
        erode_min_size background_value)

/-- Fold IDs of the loop iterations that produced a non-empty skeleton. -/
def nonemptyFoldIDs (tr : List FoldTrace) : List ℤ :=
  (tr.filter (fun t => t.skelNonempty)).map (fun t => t.foldID)

/-- Test fixture: collaborators that return no anchors, no skeleton and no
face completions. -/
def trivCollab : Collaborators :=
  ⟨fun _ _ _ _ _ => ([], []), fun _ _ _ _ => [],
    fun _ _ _ _ _ _ _ _ => [], fun _ _ => []⟩

/-- Test fixture: collaborators whose skeleton connector returns exactly
the vertices marked 1 in the fold mask, satisfying the mask-containment
contract of the spec (sections 2 and 4.2f). -/
def maskCollab : Collaborators :=
  ⟨fun _ _ _ _ _ => ([], []), fun _ _ _ _ => [],
    fun B _ _ _ _ _ _ bgv =>
      (List.range B.length).filter (fun i => B.getD i bgv = 1),
    fun _ _ => []⟩

/-- Test fixture: a three-vertex environment where every path exists, with
curvatures [1, 1, 1] and depths [1, 2, 3], so the value field is
[1, 2, 3], its median 2, its median absolute deviation 1, and the global
threshold 4. -/
def testEnv : Env :=
  ⟨fun _ => true, ⟨[], [], [1, 1, 1], 3⟩, [1, 2, 3], [], "/tmp", true⟩

/-- Membership in fundusIndices means: in range and not background. -/
lemma mem_fundusIndices {fpf : List ℤ} {bg : ℤ} {i : ℕ} :
    i ∈ fundusIndices fpf bg ↔
      i < fpf.length ∧ fpf.getD i bg ≠ bg := by
  simp [fundusIndices, List.mem_filter, List.mem_range]

/-- Lookup in a list built as a map over List.range. -/
lemma getD_range_map {α : Type} (n : ℕ) (f : ℕ → α) (v : ℕ) (d : α) :
    (((List.range n).map f).getD v d) = if v < n then f v else d := by
  by_cases h : v < n
  · rw [if_pos h]
    rw [List.getD_eq_getElem?_getD]
    rw [List.getElem?_map]
    rw [List.getElem?_range h]
    rfl
  · rw [if_neg h]
    apply List.getD_eq_default
    simpa using Nat.le_of_not_lt h

/-- Integer coercion of integer labels is the identity map. -/
lemma map_int_coerce (l : List ℤ) : l.map int_coerce = l := by
  induction l with
  | nil => rfl
  | cons a l ih =>
      rw [List.map_cons, ih]
      rfl

/-- When both source files exist, extract_fundi is the output step applied
to the core result. -/
lemma extract_fundi_eq_output (C : Collaborators) (env : Env)
    (folds : List ℤ) (cf df : String) (ms : ℕ) (er : ℚ) (ems : ℕ)
    (save : Bool) (bg : ℤ) (hcurv : env.isfile cf = true)
    (hdepth : env.isfile df = true) :
    extract_fundi C env folds cf df ms er ems save bg =
      output_step env save (extract_fundi_core C env folds ms er ems bg) := by
  rw [extract_fundi, validate_inputs, explicit_file_checks]
  rw [if_pos hcurv, if_pos hcurv, if_pos hdepth]

/-- Any successful call of extract_fundi returns the core fundus array,
count and trace (the output step only coerces labels and adds the file
name). -/
lemma extract_ok_core {C : Collaborators} {env : Env} {folds : List ℤ}
    {cf df : String} {ms : ℕ} {er : ℚ} {ems : ℕ} {save : Bool} {bg : ℤ}
    {res : ExtractResult}
    (h : extract_fundi C env folds cf df ms er ems save bg =
      Except.ok res) :
    res.fundus_per_fold =
      (extract_fundi_core C env folds ms er ems bg).fundus_per_fold ∧
    res.n_fundi_in_folds =
      (extract_fundi_core C env folds ms er ems bg).n_fundi_in_folds ∧
    res.trace = (extract_fundi_core C env folds ms er ems bg).trace := by
  rw [extract_fundi] at h
  cases hval : validate_inputs env.isfile cf df with
  | error e =>
      rw [hval] at h
      exact absurd h (by simp)
  | ok u =>
      rw [hval] at h
      rw [output_step] at h
      split_ifs at h with h1 h2 h3
      · simp only [Except.ok.injEq] at h
        subst h
        exact ⟨map_int_coerce _, rfl, rfl⟩
      · simp only [Except.ok.injEq] at h
        subst h
        exact ⟨map_int_coerce _, rfl, rfl⟩
      · simp only [Except.ok.injEq] at h
        subst h
        exact ⟨rfl, rfl, rfl⟩

/-- Every entry of the array built by buildFundusPerFold is either the
fold label of its own vertex or the background sentinel. -/
lemma buildFundusPerFold_getD (folds : List ℤ) (bg : ℤ) (np : ℕ)
    (sk : List ℕ) (v : ℕ) :
    (buildFundusPerFold folds bg np sk).getD v bg = folds.getD v bg ∨
    (buildFundusPerFold folds bg np sk).getD v bg = bg := by
  rw [buildFundusPerFold]
  rw [getD_range_map]
  by_cases h1 : v < np
  · rw [if_pos h1]
    by_cases h2 : v ∈ sk.filter (fun x => folds.getD x bg ≠ bg)
    · left
      rw [if_pos h2]
    · right
      rw [if_neg h2]
  · right
    rw [if_neg h1]

/-- Every non-background value of the array built by buildFundusPerFold is
the fold label of some accumulated skeleton vertex with a non-background
label. -/
lemma mem_buildFundusPerFold {folds : List ℤ} {bg : ℤ} {np : ℕ}
    {sk : List ℕ} {w : ℤ} (hw : w ∈ buildFundusPerFold folds bg np sk)
    (hne : w ≠ bg) :
    ∃ v ∈ sk, folds.getD v bg ≠ bg ∧ w = folds.getD v bg := by
  rw [buildFundusPerFold] at hw
  simp only [List.mem_map, List.mem_range] at hw
  obtain ⟨v, hv, hweq⟩ := hw
  by_cases h2 : v ∈ sk.filter (fun x => folds.getD x bg ≠ bg)
  · rw [if_pos h2] at hweq
    have h3 := List.mem_filter.mp h2
    refine ⟨v, h3.1, ?_, hweq.symm⟩
    simpa using h3.2
  · rw [if_neg h2] at hweq
    exact absurd hweq.symm hne

/-- A list all of whose elements are the background sentinel has no
distinct non-background value. -/
lemma distinctNonBg_eq_zero {l : List ℤ} {bg : ℤ} (h : ∀ x ∈ l, x = bg) :
    distinctNonBg l bg = 0 := by
  rw [distinctNonBg, List.length_eq_zero, List.filter_eq_nil_iff]
  intro a ha
  have ha' : a ∈ l := by
    rw [npUnique] at ha
    have h1 := List.mem_dedup.mp ha
    exact (List.mem_insertionSort (· ≤ ·)).mp h1
  simp [h a ha']

/-- C1: after any successful call of extract_fundi, a vertex whose
returned fundus_per_fold value is not the background sentinel holds its
own input fold label, and every vertex holds either its fold label or the
background sentinel. -/
theorem C1_label_fidelity (C : Collaborators) (env : Env) (folds : List ℤ)
    (cf df : String) (ms : ℕ) (er : ℚ) (ems : ℕ) (save : Bool) (bg : ℤ)
    (res : ExtractResult)
    (h : extract_fundi C env folds cf df ms er ems save bg =
      Except.ok res) (v : ℕ) :
    (res.fundus_per_fold.getD v bg ≠ bg →
      res.fundus_per_fold.getD v bg = folds.getD v bg) ∧
    (res.fundus_per_fold.getD v bg = folds.getD v bg ∨
      res.fundus_per_fold.getD v bg = bg) := by
  obtain ⟨hfpf, -, -⟩ := extract_ok_core h
  rw [hfpf]
  rw [extract_fundi_core]
  rcases buildFundusPerFold_getD folds bg env.mesh.npoints
      (runFoldLoop (mkCtx C env folds ms er ems bg)).skeletons v with
    heq | heq
  · exact ⟨fun _ => heq, Or.inl heq⟩
  · refine ⟨fun hne => absurd heq hne, Or.inr heq⟩

/-- Witness for C1 at folds [5, -1, 5] with the mask-respecting skeleton
connector: the call returns fundus_per_fold [5, -1, 5] and vertex 0
carries its own fold label. -/
theorem C1_witness :
    (([5, -1, 5] : List ℤ).getD 0 (-1) ≠ -1 →
      ([5, -1, 5] : List ℤ).getD 0 (-1) = ([5, -1, 5] : List ℤ).getD 0 (-1)) ∧
    (([5, -1, 5] : List ℤ).getD 0 (-1) = ([5, -1, 5] : List ℤ).getD 0 (-1) ∨
      ([5, -1, 5] : List ℤ).getD 0 (-1) = -1) :=
  C1_label_fidelity maskCollab testEnv [5, -1, 5] "curv.vtk" "depth.vtk"
    10 (1 / 10) 1 false (-1)
    ⟨[5, -1, 5], 1, none, [⟨5, globalThreshold testEnv, true⟩], []⟩
    (by rfl) 0

/-- C8: a fold label array that is all background yields a successful
call with fundus count 0, a fundus_per_fold array that is background at
every vertex, no trace entries, and no output artifact written or
referenced even when save_file is requested. -/
theorem C8_all_background (C : Collaborators) (env : Env) (folds : List ℤ)
    (cf df : String) (ms : ℕ) (er : ℚ) (ems : ℕ) (save : Bool) (bg : ℤ)
    (hfolds : ∀ x ∈ folds, x = bg)
    (hcurv : env.isfile cf = true) (hdepth : env.isfile df = true) :
    extract_fundi C env folds cf df ms er ems save bg =
      Except.ok ⟨(List.range env.mesh.npoints).map (fun _ => bg), 0, none,
        [], []⟩ := by
  rw [extract_fundi_eq_output C env folds cf df ms er ems save bg hcurv
    hdepth]
  have hids : uniqueFoldIDs folds bg = [] := by
    rw [uniqueFoldIDs, List.filter_eq_nil_iff]
    intro a ha
    have ha' : a ∈ folds := by
      rw [npUnique] at ha
      have h1 := List.mem_dedup.mp ha
      exact (List.mem_insertionSort (· ≤ ·)).mp h1
    simp [hfolds a ha']
  have hst : runFoldLoop (mkCtx C env folds ms er ems bg) =
      (⟨[], []⟩ : LoopState) := by
    show (uniqueFoldIDs folds bg).foldl
      (foldStep (mkCtx C env folds ms er ems bg)) ⟨[], []⟩ =
      (⟨[], []⟩ : LoopState)
    rw [hids]
    rfl
  have hfpf : buildFundusPerFold folds bg env.mesh.npoints ([] : List ℕ) =
      (List.range env.mesh.npoints).map (fun _ => bg) := by
    rw [buildFundusPerFold]
    simp
  have hn : distinctNonBg ((List.range env.mesh.npoints).map
      (fun _ => bg)) bg = 0 := by
    apply distinctNonBg_eq_zero
    intro x hx
    obtain ⟨a, -, hax⟩ := List.mem_map.mp hx
    exact hax.symm
  have hcore : extract_fundi_core C env folds ms er ems bg =
      ⟨(List.range env.mesh.npoints).map (fun _ => bg), 0, []⟩ := by
    simp only [extract_fundi_core, hst]
    rw [hfpf, hn]
  rw [hcore, output_step]
  rw [if_neg (lt_irrefl 0)]

/-- One loop step leaves the trace unchanged (empty fold, silently
skipped) or appends exactly one entry carrying the context threshold. -/
lemma foldStep_trace (ctx : FoldCtx) (st : LoopState) (fid : ℤ) :
    (foldStep ctx st fid).trace = st.trace ∨
    ∃ b, (foldStep ctx st fid).trace =
      st.trace ++ [⟨fid, ctx.thr, b⟩] := by
  rw [foldStep]
  split_ifs with h
  · left
    rfl
  · right
    exact ⟨_, rfl⟩

/-- Every trace entry produced by the loop carries the context threshold:
the inner-anchor finder receives the same scalar in every iteration. -/
lemma foldLoop_trace_thr (ctx : FoldCtx) (ids : List ℤ) (st : LoopState)
    (hst : ∀ t ∈ st.trace, t.thrArg = ctx.thr) :
    ∀ t ∈ (ids.foldl (foldStep ctx) st).trace, t.thrArg = ctx.thr := by
  induction ids generalizing st with
  | nil => simpa using hst
  | cons fid ids ih =>
      rw [List.foldl_cons]
      apply ih
      rcases foldStep_trace ctx st fid with h | ⟨b, h⟩
      · rw [h]
        exact hst
      · rw [h]
        intro t ht
        rcases List.mem_append.mp ht with h1 | h1
        · exact hst t h1
        · have h2 : t = ⟨fid, ctx.thr, b⟩ := by simpa using h1
          rw [h2]

/-- One loop step grows the trace by one entry exactly when the fold has
members. -/
lemma foldStep_trace_length (ctx : FoldCtx) (st : LoopState) (fid : ℤ) :
    (foldStep ctx st fid).trace.length = st.trace.length +
      (if (foldMembers ctx.folds ctx.background_value fid).isEmpty
       then 0 else 1) := by
  rw [foldStep]
  split_ifs with h
  · rfl
  · simp

/-- The trace length after the loop counts the fold IDs with a non-empty
member set. -/
lemma foldLoop_trace_length (ctx : FoldCtx) (ids : List ℤ)
    (st : LoopState) :
    (ids.foldl (foldStep ctx) st).trace.length = st.trace.length +
      (ids.filter (fun fid =>
        !(foldMembers ctx.folds ctx.background_value fid).isEmpty)).length := by
  induction ids generalizing st with
  | nil => simp
  | cons fid ids ih =>
      rw [List.foldl_cons, ih, foldStep_trace_length, List.filter_cons]
      by_cases h : (foldMembers ctx.folds ctx.background_value fid).isEmpty
      · simp [h]
      · simp only [h, Bool.not_false, if_pos, if_neg h]
        simp [Nat.add_comm, Nat.add_assoc, Nat.add_left_comm]

/-- C2: for any successful call of extract_fundi, every threshold handed
to the inner-anchor finder equals the single global scalar
median(P) + 2 * median_absolute_deviation(P), with P the strictly
positive subset of curvature * depth over the whole mesh, computed before
the per-fold loop; and exactly one such call is made per fold ID with a
non-empty member set, so no fold is independently thresholded. -/
theorem C2_threshold_global (C : Collaborators) (env : Env)
    (folds : List ℤ) (cf df : String) (ms : ℕ) (er : ℚ) (ems : ℕ)
    (save : Bool) (bg : ℤ) (res : ExtractResult)
    (h : extract_fundi C env folds cf df ms er ems save bg =
      Except.ok res) :
    (∀ t ∈ res.trace,
      t.thrArg = npMedian ((List.zipWith (· * ·) env.mesh.curvs
          env.depths).filter (fun x => 0 < x)) +
        2 * median_abs_dev ((List.zipWith (· * ·) env.mesh.curvs
          env.depths).filter (fun x => 0 < x))) ∧
    res.trace.length = ((uniqueFoldIDs folds bg).filter (fun fid =>
      !(foldMembers folds bg fid).isEmpty)).length := by
  obtain ⟨-, -, htr⟩ := extract_ok_core h
  rw [htr]
  constructor
  · have := foldLoop_trace_thr (mkCtx C env folds ms er ems bg)
      (uniqueFoldIDs folds bg) ⟨[], []⟩ (by intro t ht; simp at ht)
    intro t ht
    exact this t ht
  · have := foldLoop_trace_length (mkCtx C env folds ms er ems bg)
      (uniqueFoldIDs folds bg) ⟨[], []⟩
    simpa using this

/-- Witness for C2: the single-fold call of the C1 fixture, whose single
trace entry carries the global threshold. -/
theorem C2_witness :
    (∀ t ∈ [(⟨5, globalThreshold testEnv, true⟩ : FoldTrace)],
      t.thrArg = npMedian ((List.zipWith (· * ·) testEnv.mesh.curvs
          testEnv.depths).filter (fun x => 0 < x)) +
        2 * median_abs_dev ((List.zipWith (· * ·) testEnv.mesh.curvs
          testEnv.depths).filter (fun x => 0 < x))) ∧
    ([(⟨5, globalThreshold testEnv, true⟩ : FoldTrace)] : List FoldTrace).length =
      ((uniqueFoldIDs [5, -1, 5] (-1)).filter (fun fid =>
        !(foldMembers [5, -1, 5] (-1) fid).isEmpty)).length :=
  C2_threshold_global maskCollab testEnv [5, -1, 5] "curv.vtk" "depth.vtk"
    10 (1 / 10) 1 false (-1)
    ⟨[5, -1, 5], 1, none, [⟨5, globalThreshold testEnv, true⟩], []⟩
    (by rfl)

/-- Witness for C8 at the all-background fold array [-1, -1] with
save_file requested. -/
theorem C8_witness :
    extract_fundi trivCollab testEnv [-1, -1] "curv.vtk" "depth.vtk" 10
      (1 / 10) 1 true (-1) =
      Except.ok ⟨(List.range testEnv.mesh.npoints).map (fun _ => (-1 : ℤ)),
        0, none, [], []⟩ :=
  C8_all_background trivCollab testEnv [-1, -1] "curv.vtk" "depth.vtk" 10
    (1 / 10) 1 true (-1) (by decide) rfl rfl

/-- Membership in foldMembers means: in range and labeled with the fold
ID. -/
lemma mem_foldMembers {folds : List ℤ} {bg fid : ℤ} {i : ℕ} :
    i ∈ foldMembers folds bg fid ↔
      i < folds.length ∧ folds.getD i bg = fid := by
  simp [foldMembers, List.mem_filter, List.mem_range]

/-- A vertex carrying mask value 1 is a member of the fold, provided the
background sentinel is not 1. -/
lemma mem_of_foldMask_getD_one {np : ℕ} {L : List ℕ} {bg : ℤ}
    (hbg : bg ≠ 1) {x : ℕ} (h : (foldMask np L bg).getD x bg = 1) :
    x ∈ L := by
  rw [foldMask, getD_range_map] at h
  by_cases h1 : x < np
  · rw [if_pos h1] at h
    by_cases h2 : x ∈ L
    · exact h2
    · rw [if_neg h2] at h
      exact absurd h hbg
  · rw [if_neg h1] at h
    exact absurd h hbg

/-- The non-empty-skeleton fold IDs of a concatenated trace. -/
lemma nonemptyFoldIDs_append (a b : List FoldTrace) :
    nonemptyFoldIDs (a ++ b) = nonemptyFoldIDs a ++ nonemptyFoldIDs b := by
  simp [nonemptyFoldIDs, List.filter_append]

/-- Membership in the skeleton list after one step body: the vertex was
already accumulated or belongs to the newly returned skeleton. -/
lemma step_state_mem {old skel iremove : List ℕ} {x : ℕ}
    (hx : x ∈ (if iremove.isEmpty
        then (if skel.isEmpty then old else old ++ skel)
        else (if skel.isEmpty then old
              else old ++ skel).dedup.filter (fun y => y ∉ iremove))) :
    x ∈ old ∨ x ∈ skel := by
  have h1 : x ∈ (if skel.isEmpty then old else old ++ skel) := by
    by_cases hrem : iremove.isEmpty
    · rwa [if_pos hrem] at hx
    · rw [if_neg hrem] at hx
      exact List.mem_dedup.mp (List.mem_filter.mp hx).1
  by_cases hskel : skel.isEmpty
  · rw [if_pos hskel] at h1
    exact Or.inl h1
  · rw [if_neg hskel] at h1
    exact List.mem_append.mp h1

/-- One loop step preserves the invariant that every accumulated skeleton
vertex is labeled with the fold ID of some iteration that produced a
non-empty skeleton, assuming the skeleton connector only returns vertices
whose mask value is 1. -/
lemma foldStep_preserves (ctx : FoldCtx)
    (hC : ∀ B nl oa ia vals er ems bgv,
      ∀ x ∈ ctx.C.connect_points_erosion B nl oa ia vals er ems bgv,
        B.getD x bgv = 1)
    (hbg : ctx.background_value ≠ 1) (st : LoopState) (fid : ℤ)
    (hst : ∀ x ∈ st.skeletons,
      ctx.folds.getD x ctx.background_value ∈ nonemptyFoldIDs st.trace) :
    ∀ x ∈ (foldStep ctx st fid).skeletons,
      ctx.folds.getD x ctx.background_value ∈
        nonemptyFoldIDs (foldStep ctx st fid).trace := by
  intro x hx
  rw [foldStep] at hx ⊢
  by_cases hguard :
      (foldMembers ctx.folds ctx.background_value fid).isEmpty
  · rw [if_pos hguard] at hx ⊢
    exact hst x hx
  · rw [if_neg hguard] at hx ⊢
    simp only at hx ⊢
    rw [nonemptyFoldIDs_append]
    rcases step_state_mem hx with hold | hnew
    · exact List.mem_append_left _ (hst x hold)
    · apply List.mem_append_right
      have hone := hC _ _ _ _ _ _ _ _ x hnew
      have hmem := mem_of_foldMask_getD_one hbg hone
      have hlabel : ctx.folds.getD x ctx.background_value = fid :=
        (mem_foldMembers.mp hmem).2
      have hnonempty : (ctx.C.connect_points_erosion
          (foldMask ctx.npoints
            (foldMembers ctx.folds ctx.background_value fid)
            ctx.background_value) ctx.neighbor_lists
          (ctx.C.find_outer_endpoints
            (foldMembers ctx.folds ctx.background_value fid)
            ctx.neighbor_lists ctx.values ctx.depths
            ctx.min_separation).1
          (ctx.C.find_max_values ctx.points ctx.values ctx.min_separation
            ctx.thr) ctx.values ctx.erode_ratio ctx.erode_min_size
          ctx.background_value).isEmpty = false := by
        rw [List.isEmpty_eq_false]
        exact List.ne_nil_of_mem hnew
      rw [hlabel]
      simp [nonemptyFoldIDs, hnonempty]

/-- After the whole loop, every accumulated skeleton vertex is labeled
with the fold ID of some iteration that produced a non-empty skeleton. -/
lemma foldLoop_labels (ctx : FoldCtx)
    (hC : ∀ B nl oa ia vals er ems bgv,
      ∀ x ∈ ctx.C.connect_points_erosion B nl oa ia vals er ems bgv,
        B.getD x bgv = 1)
    (hbg : ctx.background_value ≠ 1) (ids : List ℤ) (st : LoopState)
    (hst : ∀ x ∈ st.skeletons,
      ctx.folds.getD x ctx.background_value ∈ nonemptyFoldIDs st.trace) :
    ∀ x ∈ (ids.foldl (foldStep ctx) st).skeletons,
      ctx.folds.getD x ctx.background_value ∈
        nonemptyFoldIDs (ids.foldl (foldStep ctx) st).trace := by
  induction ids generalizing st with
  | nil => simpa using hst
  | cons fid ids ih =>
      rw [List.foldl_cons]
      exact ih _ (foldStep_preserves ctx hC hbg st fid hst)

/-- The number of distinct non-background values of a list is bounded by
the length of any list containing all its non-background values. -/
lemma distinctNonBg_le_of_subset (l : List ℤ) (bg : ℤ) (ids : List ℤ)
    (h : ∀ x ∈ l, x ≠ bg → x ∈ ids) :
    distinctNonBg l bg ≤ ids.length := by
  have h1 : ((npUnique l).filter (fun x => x ≠ bg)).Nodup :=
    (List.nodup_dedup _).filter _
  rw [distinctNonBg, ← List.toFinset_card_of_nodup h1]
  have hsub : ((npUnique l).filter (fun x => x ≠ bg)).toFinset ⊆
      ids.toFinset := by
    intro a ha
    rw [List.mem_toFinset] at ha ⊢
    have ha2 := List.mem_filter.mp ha
    have hmem : a ∈ npUnique l := ha2.1
    rw [npUnique] at hmem
    have ha3 : a ∈ l :=
      (List.mem_insertionSort (· ≤ ·)).mp (List.mem_dedup.mp hmem)
    have ha4 : a ≠ bg := by simpa using ha2.2
    exact h a ha3 ha4
  calc ((npUnique l).filter (fun x => x ≠ bg)).toFinset.card
      ≤ ids.toFinset.card := Finset.card_le_card hsub
    _ ≤ ids.length := List.toFinset_card_le ids

/-- C5: for any successful call of extract_fundi, the returned
fundus_count is exactly the number of distinct non-background values of
the returned fundus_per_fold, and it is at most the number of folds whose
iteration produced a non-empty skeleton, under the spec contract that the
skeleton connector only returns vertices marked 1 in the fold mask and
that the background sentinel is not the mask marker 1. -/
theorem C5_count_consistency (C : Collaborators) (env : Env)
    (folds : List ℤ) (cf df : String) (ms : ℕ) (er : ℚ) (ems : ℕ)
    (save : Bool) (bg : ℤ) (res : ExtractResult)
    (hC : ∀ B nl oa ia vals er2 ems2 bgv,
      ∀ x ∈ C.connect_points_erosion B nl oa ia vals er2 ems2 bgv,
        B.getD x bgv = 1)
    (hbg : bg ≠ 1)
    (h : extract_fundi C env folds cf df ms er ems save bg =
      Except.ok res) :
    res.n_fundi_in_folds = distinctNonBg res.fundus_per_fold bg ∧
    res.n_fundi_in_folds ≤
      (res.trace.filter (fun t => t.skelNonempty)).length := by
  obtain ⟨hfpf, hn, htr⟩ := extract_ok_core h
  constructor
  · rw [hfpf, hn]
    rfl
  · rw [hn, htr]
    show distinctNonBg (buildFundusPerFold folds bg env.mesh.npoints
        (runFoldLoop (mkCtx C env folds ms er ems bg)).skeletons) bg ≤
      ((runFoldLoop (mkCtx C env folds ms er ems bg)).trace.filter
        (fun t => t.skelNonempty)).length
    have hloop := foldLoop_labels (mkCtx C env folds ms er ems bg) hC hbg
      (uniqueFoldIDs folds bg) ⟨[], []⟩ (by intro x hx; simp at hx)
    have hlen : ((runFoldLoop (mkCtx C env folds ms er ems
        bg)).trace.filter (fun t => t.skelNonempty)).length =
        (nonemptyFoldIDs
          (runFoldLoop (mkCtx C env folds ms er ems bg)).trace).length := by
      simp [nonemptyFoldIDs]
    rw [hlen]
    apply distinctNonBg_le_of_subset
    intro w hw hwne
    obtain ⟨v, hvsk, hvlabel, hweq⟩ := mem_buildFundusPerFold hw hwne
    rw [hweq]
    exact hloop v hvsk

/-- Witness for C5: the single-fold call of the C1 fixture has count 1,
equal to the distinct non-background values of [5, -1, 5] and at most the
one fold that produced a non-empty skeleton. -/
theorem C5_witness :
    (1 : ℕ) = distinctNonBg [5, -1, 5] (-1) ∧
    (1 : ℕ) ≤ (([(⟨5, globalThreshold testEnv, true⟩ : FoldTrace)]).filter
      (fun t => t.skelNonempty)).length :=
  C5_count_consistency maskCollab testEnv [5, -1, 5] "curv.vtk"
    "depth.vtk" 10 (1 / 10) 1 false (-1)
    ⟨[5, -1, 5], 1, none, [⟨5, globalThreshold testEnv, true⟩], []⟩
    (by
      intro B nl oa ia vals er2 ems2 bgv x hx
      simp only [maskCollab, List.mem_filter, List.mem_range,
        decide_eq_true_eq] at hx
      exact hx.2)
    (by decide) (by rfl)

/-- C6: with both source files present, a call of extract_fundi whose
fundus count is 0 returns no output path regardless of save_file; when
save_file is requested and the count is positive, the integer-coerced
fundus_per_fold is handed to the writer under the fixed artifact name and
the returned path is that artifact, the call failing with an IOError when
the writer did not actually create it. -/
theorem C6_output_artifact (C : Collaborators) (env : Env)
    (folds : List ℤ) (cf df : String) (ms : ℕ) (er : ℚ) (ems : ℕ)
    (save : Bool) (bg : ℤ) (hcurv : env.isfile cf = true)
    (hdepth : env.isfile df = true) :
    ((extract_fundi_core C env folds ms er ems bg).n_fundi_in_folds = 0 →
      extract_fundi C env folds cf df ms er ems save bg = Except.ok
        ⟨(extract_fundi_core C env folds ms er ems bg).fundus_per_fold, 0,
          none, (extract_fundi_core C env folds ms er ems bg).trace, []⟩) ∧
    (0 < (extract_fundi_core C env folds ms er ems bg).n_fundi_in_folds →
      save = true → env.rewrite_creates = true →
      extract_fundi C env folds cf df ms er ems save bg = Except.ok
        ⟨(extract_fundi_core C env folds ms er ems
            bg).fundus_per_fold.map int_coerce,
          (extract_fundi_core C env folds ms er ems bg).n_fundi_in_folds,
          some (fixedOutputFile env),
          (extract_fundi_core C env folds ms er ems bg).trace,
          [(fixedOutputFile env,
            (extract_fundi_core C env folds ms er ems
              bg).fundus_per_fold.map int_coerce)]⟩) ∧
    (0 < (extract_fundi_core C env folds ms er ems bg).n_fundi_in_folds →
      save = true → env.rewrite_creates = false →
      extract_fundi C env folds cf df ms er ems save bg =
        Except.error (fixedOutputFile env ++ " not found")) := by
  rw [extract_fundi_eq_output C env folds cf df ms er ems save bg hcurv
    hdepth]
  refine ⟨?_, ?_, ?_⟩
  · intro h0
    rw [output_step]
    rw [if_neg (by rw [h0]; exact lt_irrefl 0)]
    rw [h0]
  · intro hpos hsave hcreate
    rw [output_step]
    rw [if_pos hpos, if_pos hsave, if_pos hcreate]
  · intro hpos hsave hcreate
    rw [output_step]
    rw [if_pos hpos, if_pos hsave,
      if_neg (by rw [hcreate]; exact Bool.false_ne_true)]

/-- Witness for C6: the single-fold call of the C1 fixture with save_file
requested and a writer that creates the artifact. -/
theorem C6_witness :
    (((extract_fundi_core maskCollab testEnv [5, -1, 5] 10 (1 / 10) 1
        (-1)).n_fundi_in_folds = 0 →
      extract_fundi maskCollab testEnv [5, -1, 5] "curv.vtk" "depth.vtk"
        10 (1 / 10) 1 true (-1) = Except.ok
        ⟨(extract_fundi_core maskCollab testEnv [5, -1, 5] 10 (1 / 10) 1
            (-1)).fundus_per_fold, 0, none,
          (extract_fundi_core maskCollab testEnv [5, -1, 5] 10 (1 / 10) 1
            (-1)).trace, []⟩) ∧
    (0 < (extract_fundi_core maskCollab testEnv [5, -1, 5] 10 (1 / 10) 1
        (-1)).n_fundi_in_folds →
      true = true → testEnv.rewrite_creates = true →
      extract_fundi maskCollab testEnv [5, -1, 5] "curv.vtk" "depth.vtk"
        10 (1 / 10) 1 true (-1) = Except.ok
        ⟨(extract_fundi_core maskCollab testEnv [5, -1, 5] 10 (1 / 10) 1
            (-1)).fundus_per_fold.map int_coerce,
          (extract_fundi_core maskCollab testEnv [5, -1, 5] 10 (1 / 10) 1
            (-1)).n_fundi_in_folds, some (fixedOutputFile testEnv),
          (extract_fundi_core maskCollab testEnv [5, -1, 5] 10 (1 / 10) 1
            (-1)).trace,
          [(fixedOutputFile testEnv,
            (extract_fundi_core maskCollab testEnv [5, -1, 5] 10 (1 / 10)
              1 (-1)).fundus_per_fold.map int_coerce)]⟩) ∧
    (0 < (extract_fundi_core maskCollab testEnv [5, -1, 5] 10 (1 / 10) 1
        (-1)).n_fundi_in_folds →
      true = true → testEnv.rewrite_creates = false →
      extract_fundi maskCollab testEnv [5, -1, 5] "curv.vtk" "depth.vtk"
        10 (1 / 10) 1 true (-1) =
        Except.error (fixedOutputFile testEnv ++ " not found"))) :=
  C6_output_artifact maskCollab testEnv [5, -1, 5] "curv.vtk" "depth.vtk"
    10 (1 / 10) 1 true (-1) rfl rfl

/-- C4: for every call of segment_fundi, with S the non-background index
set of fundus_per_fold: if S is non-empty and a non-empty sulcus labeling
is supplied, the returned fundus_per_sulcus is background everywhere except
that every i in S holds sulcus_labels[i], and the returned count is the
number of distinct non-background values of the output; if S is empty or
no sulcus labeling is supplied, the output is empty and the count is 0. -/
theorem C4_segment_fundi_relabels (fpf sulci : List ℤ) (bg : ℤ)
    (hvalid : ∀ i ∈ fundusIndices fpf bg, i < sulci.length) :
    (fundusIndices fpf bg ≠ [] → sulci ≠ [] →
      ∃ out n, segment_fundi fpf sulci bg = Except.ok (out, n) ∧
        (∀ i ∈ fundusIndices fpf bg, out.getD i bg = sulci.getD i bg) ∧
        (∀ i, i ∉ fundusIndices fpf bg → out.getD i bg = bg) ∧
        n = distinctNonBg out bg) ∧
    (fundusIndices fpf bg = [] ∨ sulci = [] →
      segment_fundi fpf sulci bg = Except.ok ([], 0)) := by
  constructor
  · intro hne hs
    have hlen : sulci.length ≠ 0 := by
      simpa [List.length_eq_zero] using hs
    have hall : (fundusIndices fpf bg).all
        (fun i => decide (i < sulci.length)) = true := by
      rw [List.all_eq_true]
      intro i hi
      simpa using hvalid i hi
    refine ⟨(List.range sulci.length).map
        (fun i => if i ∈ fundusIndices fpf bg then sulci.getD i bg
                  else bg),
      distinctNonBg ((List.range sulci.length).map
        (fun i => if i ∈ fundusIndices fpf bg then sulci.getD i bg
                  else bg)) bg, ?_, ?_, ?_, rfl⟩
    · simp only [segment_fundi]
      rw [if_pos ⟨hne, hlen⟩, if_pos hall]
    · intro i hi
      rw [getD_range_map]
      rw [if_pos (hvalid i hi)]
      rw [if_pos hi]
    · intro i hi
      rw [getD_range_map]
      by_cases h : i < sulci.length
      · rw [if_pos h, if_neg hi]
      · rw [if_neg h]
  · intro h
    simp only [segment_fundi]
    rw [if_neg]
    rcases h with h | h
    · exact fun hc => hc.1 h
    · exact fun hc => hc.2 (by simp [h])

/-- Witness for C4 at fundus_per_fold [5, -1], sulci [7, 3],
background -1. -/
theorem C4_witness :
    (∀ i ∈ fundusIndices [5, -1] (-1), i < ([7, 3] : List ℤ).length) ∧
    ((fundusIndices [5, -1] (-1) ≠ [] → ([7, 3] : List ℤ) ≠ [] →
      ∃ out n, segment_fundi [5, -1] [7, 3] (-1) = Except.ok (out, n) ∧
        (∀ i ∈ fundusIndices [5, -1] (-1),
          out.getD i (-1) = ([7, 3] : List ℤ).getD i (-1)) ∧
        (∀ i, i ∉ fundusIndices [5, -1] (-1) → out.getD i (-1) = -1) ∧
        n = distinctNonBg out (-1)) ∧
    (fundusIndices [5, -1] (-1) = [] ∨ ([7, 3] : List ℤ) = [] →
      segment_fundi [5, -1] [7, 3] (-1) = Except.ok ([], 0))) :=
  ⟨by decide, C4_segment_fundi_relabels [5, -1] [7, 3] (-1) (by decide)⟩

/-- C7: every vertex that is non-background in the output of segment_fundi
is non-background in the input fundus_per_fold. -/
theorem C7_segment_subset (fpf sulci : List ℤ) (bg : ℤ) (out : List ℤ)
    (n : ℕ) (h : segment_fundi fpf sulci bg = Except.ok (out, n)) (i : ℕ)
    (hi : out.getD i bg ≠ bg) : fpf.getD i bg ≠ bg := by
  rw [segment_fundi] at h
  split_ifs at h with h1 h2
  · simp only [Except.ok.injEq, Prod.mk.injEq] at h
    have hout : out = (List.range sulci.length).map
        (fun i => if i ∈ fundusIndices fpf bg then sulci.getD i bg
                  else bg) := h.1.symm
    rw [hout, getD_range_map] at hi
    by_cases hlt : i < sulci.length
    · rw [if_pos hlt] at hi
      by_cases hmem : i ∈ fundusIndices fpf bg
      · exact (mem_fundusIndices.mp hmem).2
      · exact absurd (if_neg hmem) hi
    · exact absurd (if_neg hlt) hi
  · simp only [Except.ok.injEq, Prod.mk.injEq] at h
    obtain ⟨h1', h2'⟩ := h
    subst h1'
    simp at hi

/-- Witness for C7 at fundus_per_fold [5, -1], sulci [7, 3],
background -1, output [7, -1]. -/
theorem C7_witness : ([5, -1] : List ℤ).getD 0 (-1) ≠ -1 :=
  C7_segment_subset [5, -1] [7, 3] (-1) [7, -1] 1 (by rfl) 0 (by decide)

/-- C9: segment_fundi is deterministic; two calls with identical inputs
return identical (output, count) pairs, there being no hidden state. -/
theorem C9_segment_deterministic (f1 s1 : List ℤ) (b1 : ℤ) (f2 s2 : List ℤ)
    (b2 : ℤ) (hf : f1 = f2) (hs : s1 = s2) (hb : b1 = b2) :
    segment_fundi f1 s1 b1 = segment_fundi f2 s2 b2 := by
  subst hf
  subst hs
  subst hb
  rfl

/-- Witness for C9 at two textually identical calls. -/
theorem C9_witness :
    segment_fundi [5, -1] [7, 3] (-1) = segment_fundi [5, -1] [7, 3] (-1) :=
  C9_segment_deterministic [5, -1] [7, 3] (-1) [5, -1] [7, 3] (-1)
    rfl rfl rfl

/-- C10: when the non-background index set is non-empty, a non-empty
sulcus labeling is supplied, and every non-background index is a valid
index into the sulcus labeling, the output of segment_fundi has the length
of the sulcus labeling, not that of fundus_per_fold. -/
theorem C10_segment_length (fpf sulci : List ℤ) (bg : ℤ)
    (hne : fundusIndices fpf bg ≠ []) (hs : sulci.length ≠ 0)
    (hvalid : ∀ i ∈ fundusIndices fpf bg, i < sulci.length) :
    ∃ out n, segment_fundi fpf sulci bg = Except.ok (out, n) ∧
      out.length = sulci.length := by
  have hall : (fundusIndices fpf bg).all
      (fun i => decide (i < sulci.length)) = true := by
    rw [List.all_eq_true]
    intro i hi
    simpa using hvalid i hi
  refine ⟨(List.range sulci.length).map
      (fun i => if i ∈ fundusIndices fpf bg then sulci.getD i bg
                else bg),
    distinctNonBg ((List.range sulci.length).map
      (fun i => if i ∈ fundusIndices fpf bg then sulci.getD i bg
                else bg)) bg, ?_, ?_⟩
  · simp only [segment_fundi]
    rw [if_pos ⟨hne, hs⟩, if_pos hall]
  · rw [List.length_map, List.length_range]

/-- Witness for C10 at fundus_per_fold [5, -1, 9] (length 3) and sulci
[7, 3] (length 2): the output has length 2. -/
theorem C10_witness :
    ∃ out n, segment_fundi [5, -1] [7, 3, 4] (-1) = Except.ok (out, n) ∧
      out.length = ([7, 3, 4] : List ℤ).length :=
  C10_segment_length [5, -1] [7, 3, 4] (-1) (by decide) (by decide)
    (by decide)

/-- C3, evaluation at the failing input: curv_file exists on disk and
depth_file does not. The explicit validation of fundi.py lines 117-125
nevertheless passes, because the isfile test guarding the depth-file read
(line 122) is applied to curv_file again, so the IOError naming
depth_file (line 125) is unreachable and the function proceeds past its
own validation; the eventual failure comes only from the read_scalars
collaborator, modelled from the spec. -/
theorem C3_depth_check_dead :
    (fun s => s == "curv.vtk") "depth.vtk" = false ∧
    explicit_file_checks (fun s => s == "curv.vtk") "curv.vtk"
      "depth.vtk" = Except.ok () ∧
    validate_inputs (fun s => s == "curv.vtk") "curv.vtk" "depth.vtk" =
      Except.error ("read_scalars: file not found: depth.vtk") := by
  refine ⟨?_, ?_, ?_⟩
  · rfl
  · rfl
  · rfl

end Mindboggle
